import Mathlib

/- Verification of the latent-diffusion inverse-problem solvers in
src/solver/latent_diffusion.py (solver classes UncondSolver, TRegSolver,
LDPSSolver, P2LSolver).

Modelling conventions of the shallow embedding:
* Tensors are modelled elementwise by a single rational scalar.
* The opaque collaborators (the UNet noise predictor, the VAE posterior
  sampler and decoder, the CLIP image embedder used by adaptive negation,
  and the numeric sqrt of the backend) are abstract functions collected in
  a `Backend` structure; nothing about them is assumed.
* `torch.autograd.grad(residue, zt)` is modelled by an abstract gradient
  operator `gradOp : (QQ -> QQ) -> QQ -> QQ` applied to the residual
  reconstructed as a function of the latent, at the current latent.
* `torch.linalg.norm` of a (scalar) tensor is the absolute value.
* Timesteps are naturals; `prev_t = t - skip` is computed in the integers,
  as in Python, so that the sign test of the source is faithful. -/

namespace LDSolver

/-- Opaque collaborators of the solvers (section 6 of the spec): the
generative backbone, the latent codec backbone, the numeric sqrt, and the
adaptive-negation update (the bounded Adam loop over the CLIP similarity,
whose net effect on the null embedding is abstract). -/
structure Backend where
  unet : ℚ → ℕ → Option ℚ → ℚ
  vaeEncSample : ℚ → ℚ
  vaeDec : ℚ → ℚ
  sqrt : ℚ → ℚ
  adaptNeg : ℚ → ℚ → ℚ

/-- UncondSolver.encode: `vae.encode(x).latent_dist.sample() * 0.18215`. -/
def encode (B : Backend) (x : ℚ) : ℚ :=
  B.vaeEncSample x * (18215 / 100000)

/-- UncondSolver.decode: `zt = 1/0.18215 * zt; vae.decode(zt).sample`. -/
def decode (B : Backend) (z : ℚ) : ℚ :=
  B.vaeDec (1 / (18215 / 100000 : ℚ) * z)

/-- UncondSolver.predict_noise (split=False path).  The source tests
`uc is None or cfg_guidance == 1.0`; in that branch it runs one UNet pass
with `encoder_hidden_states=uc`.  Otherwise it doubles the batch over
(uc, c); the batched backbone acts per sample, so the two chunks are the
per-sample passes conditioned on uc and on c. -/
def predict_noise (B : Backend) (zt : ℚ) (t : ℕ) (uc : Option ℚ) (c : ℚ)
    (cfg_guidance : ℚ) : ℚ :=
  if uc = none ∨ cfg_guidance = 1 then
    B.unet zt t uc
  else
    let noise_uc := B.unet zt t uc
    let noise_c := B.unet zt t (some c)
    noise_uc + cfg_guidance * (noise_c - noise_uc)

/-- UncondSolver.predict_noise with the `split` flag, modelling the Python
local-variable semantics: `noise_uc` and `noise_c` are assigned only in the
batched branch, so reading them with `split=True` after the single-pass
branch raises UnboundLocalError.  `.inl` is the mixed prediction returned
when `split=False`; `.inr` is the unmixed pair. -/
def predict_noise_split (B : Backend) (zt : ℚ) (t : ℕ) (uc : Option ℚ)
    (c : ℚ) (cfg_guidance : ℚ) (split : Bool) : Except String (ℚ ⊕ (ℚ × ℚ)) :=
  let locals :=
    if uc = none ∨ cfg_guidance = 1 then
      (B.unet zt t uc, (none : Option ℚ), (none : Option ℚ))
    else
      let noise_uc := B.unet zt t uc
      let noise_c := B.unet zt t (some c)
      (noise_uc + cfg_guidance * (noise_c - noise_uc), some noise_uc, some noise_c)
  if split then
    match locals.2.1, locals.2.2 with
    | some noise_uc, some noise_c => .ok (.inr (noise_uc, noise_c))
    | _, _ => .error "UnboundLocalError"
  else
    .ok (.inl locals.1)

/-- Modelled from the spec: the timestep schedule produced by the external
scheduler (DDIMScheduler.set_timesteps is library code, not under src/).
Section 4.1: a strictly decreasing sequence of timesteps with uniform
stride `skip = total / num_steps`, ending at 0. -/
def scheduleTimesteps (total num_sampling : ℕ) : List ℕ :=
  ((List.range num_sampling).map (fun k => k * (total / num_sampling))).reverse

/-- UncondSolver.__init__: `skip = total_timesteps // num_sampling`. -/
def skipOf (total num_sampling : ℕ) : ℕ := total / num_sampling

/-- UncondSolver.__init__ line 64:
`alphas_cumprod = torch.cat([torch.tensor([1.0]), alphas_cumprod])`. -/
def extendAlphas (alphas : List ℚ) : List ℚ := 1 :: alphas

/-- The per-step lookup `at = alphas_cumprod[t]` against the extended table. -/
def atOf (alphas : List ℚ) (t : ℕ) : ℚ := (extendAlphas alphas).getD t 0

/-- The previous timestep `prev_t = t - skip`, an integer as in Python. -/
def prevT (skip t : ℕ) : ℤ := (t : ℤ) - (skip : ℤ)

/-- The shared three lines of every sampling loop:
`at_prev = alphas_cumprod[prev_t] if prev_t >= 0 else final_alpha_cumprod`. -/
def atPrevOf (alphas : List ℚ) (finalA : ℚ) (skip t : ℕ) : ℚ :=
  if 0 ≤ prevT skip t then (extendAlphas alphas).getD (prevT skip t).toNat 0
  else finalA

/-- One conjugate-gradient iteration on the state (x, r, p), with the scalar
dot product.  Modelled from the spec: the CG routine itself lives in
functions/conjugate_gradient.py, which is not under src/; section 4.5 says
it runs a fixed number of standard CG iterations on the regularized
normal-equations system. -/
def cgStep (A : ℚ → ℚ) : ℚ × ℚ × ℚ → ℚ × ℚ × ℚ := fun s =>
  let x := s.1
  let r := s.2.1
  let p := s.2.2
  let Ap := A p
  let alpha := (r * r) / (p * Ap)
  let x2 := x + alpha * p
  let r2 := r - alpha * Ap
  let beta := (r2 * r2) / (r * r)
  (x2, r2, r2 + beta * p)

/-- Modelled from the spec: m conjugate-gradient iterations from state s. -/
def CGrun (A : ℚ → ℚ) : ℕ → ℚ × ℚ × ℚ → ℚ
  | 0, s => s.1
  | m + 1, s => CGrun A m (cgStep A s)

/-- Modelled from the spec: `CG(A, b, x, m)` runs m conjugate-gradient
iterations for `A x = b` starting from the initial guess x. -/
def CG (A : ℚ → ℚ) (b x : ℚ) (m : ℕ) : ℚ :=
  CGrun A m (x, b - A x, b - A x)

/-- TRegSolver.data_consistency: decode, build
`bvec = At(measurement) + cg_lamb * x0t`, solve
`(At . A + cg_lamb I) x = bvec` by CG with m=5 from x0t, re-encode. -/
def data_consistency (B : Backend) (z0t measurement : ℚ) (A At : ℚ → ℚ)
    (cg_lamb : ℚ) : ℚ × ℚ :=
  let x0t := decode B z0t
  let bvec := At measurement + cg_lamb * x0t
  let x0y := CG (fun x => At (A x) + cg_lamb * x) bvec x0t 5
  let z0y := encode B x0y
  (z0y, x0y)

/-- Output of one iteration of a sampling loop. -/
structure StepOut where
  noisePred : ℚ
  z0t : ℚ
  ztNext : ℚ

/-- One iteration of UncondSolver.sample (lines 220-232). -/
def uncond_step (B : Backend) (alphas : List ℚ) (finalA : ℚ) (skip : ℕ)
    (uc : Option ℚ) (c cfg_guidance zt : ℚ) (t : ℕ) : StepOut :=
  let at_ := atOf alphas t
  let at_prev := atPrevOf alphas finalA skip t
  let noise_pred := predict_noise B zt t uc c cfg_guidance
  let z0t := (zt - B.sqrt (1 - at_) * noise_pred) / B.sqrt at_
  { noisePred := noise_pred
    z0t := z0t
    ztNext := B.sqrt at_prev * z0t + B.sqrt (1 - at_prev) * noise_pred }

/-- The measurement residual reconstructed as a function of the latent, as
the autograd graph sees it in the DPS branch of TRegSolver.sample and in
P2LSolver.sample: latent -> noise -> Tweedie estimate -> decode -> norm of
(measurement - A x0t). -/
def measResidue (B : Backend) (alphas : List ℚ) (uc : Option ℚ)
    (c cfg_guidance measurement : ℚ) (A : ℚ → ℚ) (t : ℕ) : ℚ → ℚ := fun z =>
  let noise_pred := predict_noise B z t uc c cfg_guidance
  let at_ := atOf alphas t
  let z0t := (z - B.sqrt (1 - at_) * noise_pred) / B.sqrt at_
  let x0t := decode B z0t
  |measurement - A x0t|

/-- Output of one iteration of TRegSolver.sample; `dcRan` records whether
the data-consistency branch was taken. -/
structure TRegOut where
  noisePred : ℚ
  z0t : ℚ
  ztNext : ℚ
  ucNext : Option ℚ
  dcRan : Bool

/-- One iteration of TRegSolver.sample (lines 339-380).  The branch guard is
`step % 3 == 0 and step < 170`; in the other branches `use_DPS` selects the
gradient correction, with `dps_lamb` defaulting to `at_prev.sqrt()`. -/
def treg_step (B : Backend) (gradOp : (ℚ → ℚ) → ℚ → ℚ) (alphas : List ℚ)
    (finalA : ℚ) (skip : ℕ) (use_DPS use_AN : Bool) (cg_lamb : ℚ)
    (dps_lamb : Option ℚ) (measurement : ℚ) (A At : ℚ → ℚ) (noise : ℚ)
    (uc : Option ℚ) (c cfg_guidance zt : ℚ) (step t : ℕ) : TRegOut :=
  let at_ := atOf alphas t
  let at_prev := atPrevOf alphas finalA skip t
  if step % 3 = 0 ∧ step < 170 then
    let noise_pred := predict_noise B zt t uc c cfg_guidance
    let z0t := (zt - B.sqrt (1 - at_) * noise_pred) / B.sqrt at_
    let dc := data_consistency B z0t measurement A At cg_lamb
    let z0y := dc.1
    let x0y := dc.2
    let uc2 := if use_AN then Option.map (fun u => B.adaptNeg x0y u) uc else uc
    let z0_ema := at_prev * z0y + (1 - at_prev) * z0t
    let zt1 := B.sqrt at_prev * z0_ema + (1 - at_prev) * noise_pred
    let zt2 := zt1 + B.sqrt (1 - at_prev) * B.sqrt at_prev * noise
    { noisePred := noise_pred, z0t := z0t, ztNext := zt2, ucNext := uc2,
      dcRan := true }
  else
    if use_DPS then
      let lam := dps_lamb.getD (B.sqrt at_prev)
      let noise_pred := predict_noise B zt t uc c 0
      let z0t := (zt - B.sqrt (1 - at_) * noise_pred) / B.sqrt at_
      let zt_prime := B.sqrt at_prev * z0t + B.sqrt (1 - at_prev) * noise_pred
      let grad := gradOp (measResidue B alphas uc c 0 measurement A t) zt
      { noisePred := noise_pred, z0t := z0t, ztNext := zt_prime - lam * grad,
        ucNext := uc, dcRan := false }
    else
      let noise_pred := predict_noise B zt t uc c cfg_guidance
      let z0t := (zt - B.sqrt (1 - at_) * noise_pred) / B.sqrt at_
      { noisePred := noise_pred, z0t := z0t,
        ztNext := B.sqrt at_prev * z0t + B.sqrt (1 - at_prev) * noise_pred,
        ucNext := uc, dcRan := false }

/-- The combined PSLD residual as a function of the latent, translated from
LDPSSolver.sample lines 436-449. -/
def psldResidue (B : Backend) (alphas : List ℚ) (uc : Option ℚ)
    (c cfg_guidance measurement : ℚ) (A At : ℚ → ℚ) (t : ℕ) : ℚ → ℚ := fun z =>
  let noise_pred := predict_noise B z t uc c cfg_guidance
  let at_ := atOf alphas t
  let z0t := (z - B.sqrt (1 - at_) * noise_pred) / B.sqrt at_
  let x0t := decode B z0t
  let residue := |measurement - A x0t|
  let ortho_project := x0t - At (A x0t)
  let parallel_project := At measurement
  let projected := parallel_project + ortho_project
  let recon_z := encode B projected
  let z0_residue := |recon_z - z0t|
  let omega : ℚ := 1
  let gamma : ℚ := 1 / 2
  omega * residue + gamma * z0_residue

/-- The PSLD residual as claim C4 states it:
`1.0 * norm(y - A(x0t)) + 0.5 * norm(encode(At(y) + (x0t - At(A(x0t)))) - z0t)`. -/
def psldResidueClaim (B : Backend) (alphas : List ℚ) (uc : Option ℚ)
    (c cfg_guidance measurement : ℚ) (A At : ℚ → ℚ) (t : ℕ) : ℚ → ℚ := fun z =>
  let noise_pred := predict_noise B z t uc c cfg_guidance
  let at_ := atOf alphas t
  let z0t := (z - B.sqrt (1 - at_) * noise_pred) / B.sqrt at_
  let x0t := decode B z0t
  1 * |measurement - A x0t|
    + (1 / 2) * |encode B (At measurement + (x0t - At (A x0t))) - z0t|

/-- One iteration of LDPSSolver.sample (lines 417-451), with `eta = 0.0` as
in the source. -/
def psld_step (B : Backend) (gradOp : (ℚ → ℚ) → ℚ → ℚ) (alphas : List ℚ)
    (finalA : ℚ) (skip : ℕ) (uc : Option ℚ) (c cfg_guidance measurement : ℚ)
    (A At : ℚ → ℚ) (noise zt : ℚ) (t : ℕ) : StepOut :=
  let at_ := atOf alphas t
  let at_prev := atPrevOf alphas finalA skip t
  let eta : ℚ := 0
  let noise_pred := predict_noise B zt t uc c cfg_guidance
  let z0t := (zt - B.sqrt (1 - at_) * noise_pred) / B.sqrt at_
  let sig := eta * B.sqrt ((1 - at_prev) / (1 - at_)) * B.sqrt (1 - at_ / at_prev)
  let zt_prime := B.sqrt at_prev * z0t + B.sqrt (1 - at_prev - sig ^ 2) * noise_pred
    + sig * noise
  let grad := gradOp (psldResidue B alphas uc c cfg_guidance measurement A At t) zt
  { noisePred := noise_pred, z0t := z0t, ztNext := zt_prime - grad }

/-- A leaf tensor as the autograd engine sees it: its value, whether it
requires gradients, and its accumulated gradient slot. -/
structure PTensor where
  val : ℚ
  requiresGrad : Bool
  grad : Option ℚ

/-- The per-step prompt-tuning block of P2LSolver.sample (lines 508-513):
`optim_c.zero_grad()` clears the gradient slot; `loss_c.backward()`
populates it only when the tensor requires gradients (only then is it part
of the graph of the loss); `optim_c.step()` updates only parameters whose
gradient slot is populated; `c = c.detach()` yields the tensor used from
then on, with gradient tracking off.  `adamUpd` abstracts the Adam update
and `gradAt` the gradient value of the lookahead loss at the current
embedding value. -/
def p2l_tune_c (adamUpd : ℚ → ℚ → ℚ) (gradAt : ℚ → ℚ) (c : PTensor) : PTensor :=
  let c1 : PTensor := { c with grad := none }
  let c2 : PTensor :=
    if c1.requiresGrad then { c1 with grad := some (gradAt c1.val) } else c1
  let c3 : PTensor :=
    match c2.grad with
    | some g => { c2 with val := adamUpd c2.val g }
    | none => c2
  { val := c3.val, requiresGrad := false, grad := none }

/-- The conditional embedding actually used by the main sampling update of
P2LSolver.sample at each step index: the loop body tunes the running
embedding once (with the step-dependent loss gradient and Adam state) and
then uses the detached result. -/
def p2l_c_used (adamUpd : ℕ → ℚ → ℚ → ℚ) (gradAt : ℕ → ℚ → ℚ)
    (c0 : PTensor) : ℕ → PTensor
  | 0 => p2l_tune_c (adamUpd 0) (gradAt 0) c0
  | k + 1 => p2l_tune_c (adamUpd (k + 1)) (gradAt (k + 1))
      (p2l_c_used adamUpd gradAt c0 k)

/-- One iteration of P2LSolver.sample (lines 501-531), with `eta = 0.0` as
in the source; returns the step output together with the tuned (detached)
conditional embedding carried to the next step. -/
def p2l_step (B : Backend) (gradOp : (ℚ → ℚ) → ℚ → ℚ) (adamUpd : ℚ → ℚ → ℚ)
    (gradAt : ℚ → ℚ) (alphas : List ℚ) (finalA : ℚ) (skip : ℕ)
    (uc : Option ℚ) (cP : PTensor) (cfg_guidance measurement : ℚ)
    (A : ℚ → ℚ) (noise zt : ℚ) (t : ℕ) : StepOut × PTensor :=
  let at_ := atOf alphas t
  let at_prev := atPrevOf alphas finalA skip t
  let eta : ℚ := 0
  let c2 := p2l_tune_c adamUpd gradAt cP
  let noise_pred := predict_noise B zt t uc c2.val cfg_guidance
  let z0t := (zt - B.sqrt (1 - at_) * noise_pred) / B.sqrt at_
  let sig := eta * B.sqrt ((1 - at_prev) / (1 - at_)) * B.sqrt (1 - at_ / at_prev)
  let zt_prime := B.sqrt at_prev * z0t + B.sqrt (1 - at_prev - sig ^ 2) * noise_pred
    + sig * noise
  let grad := gradOp (measResidue B alphas uc c2.val cfg_guidance measurement A t) zt
  ({ noisePred := noise_pred, z0t := z0t, ztNext := zt_prime - grad }, c2)

/-- A concrete backend for witnesses and counterexamples: the UNet returns
the conditioning embedding (0 for None), the codec and sqrt are identity. -/
def B0 : Backend where
  unet := fun _ _ e => e.getD 0
  vaeEncSample := fun x => x
  vaeDec := fun x => x
  sqrt := fun x => x
  adaptNeg := fun _ u => u

/-- A concrete gradient operator for witnesses. -/
def gradOp0 : (ℚ → ℚ) → ℚ → ℚ := fun f z => f z

/-- A concrete four-entry cumulative-alpha table for witnesses. -/
def alphas0 : List ℚ := [9 / 10, 8 / 10, 7 / 10, 6 / 10]

/-- The guard of the single-pass branch of predict_noise is false exactly
when uc is present and cfg_guidance differs from 1. -/
theorem uc_guard_false (u g : ℚ) (h : g ≠ 1) :
    ¬((some u : Option ℚ) = none ∨ g = 1) := by
  rintro (h1 | h2)
  · exact Option.noConfusion h1
  · exact h h2

/-- C1 (amended): when uc is None or cfg_guidance equals 1.0, predict_noise
performs a single forward pass whose result is the backbone prediction
conditioned on the uc argument (the null-text embedding, or no embedding
when uc is None) — not on the guidance embedding c. -/
theorem c1_single_pass_uses_uc (B : Backend) (zt : ℚ) (t : ℕ) (uc : Option ℚ)
    (c cfg_guidance : ℚ) (h : uc = none ∨ cfg_guidance = 1) :
    predict_noise B zt t uc c cfg_guidance = B.unet zt t uc := by
  unfold predict_noise
  rw [if_pos h]

/-- C1 counterexample: with cfg_guidance = 1.0, uc = 3 and c = 4 present and
distinct, the single forward pass is conditioned on uc, so its result (3)
differs from the plain conditional forward pass on c (4). -/
theorem c1_counterexample :
    predict_noise B0 0 5 (some 3) 4 1 ≠ B0.unet 0 5 (some 4) := by decide

/-- C1 witness: the single-pass branch evaluated at a concrete input. -/
theorem c1_witness :
    (some (3 : ℚ) = none ∨ (1 : ℚ) = 1)
      ∧ predict_noise B0 0 5 (some 3) 4 1 = B0.unet 0 5 (some 3) :=
  ⟨Or.inr rfl, c1_single_pass_uses_uc B0 0 5 (some 3) 4 1 (Or.inr rfl)⟩

/-- C2 (amended): the table is extended by prepending the sentinel 1.0 at
index 0 (the virtual index preceding the first timestep), which shifts
every lookup by one: for a schedule timestep t, the extended table at t
yields the sentinel 1.0 when t = 0 and otherwise the unextended table value
at t - 1, not the unextended value at t. -/
theorem c2_shifted_lookup (alphas : List ℚ) (total num_sampling t : ℕ)
    (_h : t ∈ scheduleTimesteps total num_sampling) :
    atOf alphas t = if t = 0 then 1 else alphas.getD (t - 1) 0 := by
  cases t with
  | zero => rfl
  | succ k => simp [atOf, extendAlphas]

/-- C2 counterexample: with the concrete table [9/10, 8/10, 7/10, 6/10] and
the schedule for total = 4, num_sampling = 2, the timestep t = 2 is in the
schedule, but the extended table at 2 gives 8/10 while the unextended
schedule assigns 7/10 to t = 2. -/
theorem c2_counterexample :
    2 ∈ scheduleTimesteps 4 2 ∧ atOf alphas0 2 ≠ alphas0.getD 2 0 := by
  refine ⟨by decide, ?_⟩
  norm_num [atOf, extendAlphas, alphas0, List.getD_cons_succ, List.getD_cons_zero]

/-- C2 witness: the shifted lookup evaluated at a concrete schedule timestep. -/
theorem c2_witness :
    2 ∈ scheduleTimesteps 4 2
      ∧ atOf alphas0 2 = if 2 = 0 then 1 else alphas0.getD (2 - 1) 0 :=
  ⟨by decide, c2_shifted_lookup alphas0 4 2 2 (by decide)⟩

/-- C6: when uc is present and cfg_guidance differs from 1.0, predict_noise
computes the per-sample passes conditioned on uc and c (the two chunks of
the doubled batch) and returns noise_uc + cfg_guidance * (noise_c -
noise_uc); in particular at cfg_guidance = 0 it returns the unconditional
pass. -/
theorem c6_cfg_mixing (B : Backend) (zt : ℚ) (t : ℕ) (u c cfg_guidance : ℚ)
    (h : cfg_guidance ≠ 1) :
    predict_noise B zt t (some u) c cfg_guidance
        = B.unet zt t (some u)
          + cfg_guidance * (B.unet zt t (some c) - B.unet zt t (some u))
      ∧ predict_noise B zt t (some u) c 0 = B.unet zt t (some u) := by
  constructor
  · unfold predict_noise
    rw [if_neg (uc_guard_false u cfg_guidance h)]
  · unfold predict_noise
    rw [if_neg (uc_guard_false u 0 (by norm_num))]
    ring

/-- C6 witness: the mixing rule evaluated at a concrete input with
cfg_guidance = 2. -/
theorem c6_witness :
    predict_noise B0 0 5 (some 3) 4 2
        = B0.unet 0 5 (some 3) + 2 * (B0.unet 0 5 (some 4) - B0.unet 0 5 (some 3))
      ∧ predict_noise B0 0 5 (some 3) 4 0 = B0.unet 0 5 (some 3) :=
  c6_cfg_mixing B0 0 5 3 4 2 (by norm_num)

/-- C7: for a schedule timestep t, the previous timestep is
prev(t) = t - skip with skip = total // num_sampling (truncating Nat
division), and when prev(t) < 0 the shared at_prev computation of every
sampling loop (the three lines repeated verbatim in all five loops of the
source, embedded once as atPrevOf) substitutes the configured terminal
alpha final_alpha_cumprod. -/
theorem c7_prev_timestep (alphas : List ℚ) (finalA : ℚ)
    (total num_sampling t : ℕ) (_h : t ∈ scheduleTimesteps total num_sampling) :
    prevT (skipOf total num_sampling) t = (t : ℤ) - (total / num_sampling : ℕ)
      ∧ (prevT (skipOf total num_sampling) t < 0 →
          atPrevOf alphas finalA (skipOf total num_sampling) t = finalA) := by
  refine ⟨rfl, fun hneg => ?_⟩
  unfold atPrevOf
  rw [if_neg (not_le.mpr hneg)]

/-- C7 witness: at total = 4, num_sampling = 2, the schedule timestep t = 0
has prev(t) = -2 < 0 and the terminal alpha is substituted. -/
theorem c7_witness :
    prevT (skipOf 4 2) 0 = (0 : ℤ) - ((4 / 2 : ℕ) : ℤ)
      ∧ atPrevOf alphas0 (1 / 2) (skipOf 4 2) 0 = 1 / 2 :=
  ⟨(c7_prev_timestep alphas0 (1 / 2) 4 2 0 (by decide)).1,
   (c7_prev_timestep alphas0 (1 / 2) 4 2 0 (by decide)).2 (by decide)⟩

/-- C9 (amended): with split=True, predict_noise returns the unmixed pair
(noise_uc, noise_c) exactly when the batched branch is taken (uc present
and cfg_guidance different from 1.0); when uc is None or cfg_guidance
equals 1.0 the result variables are never bound and the call fails with an
UnboundLocalError. -/
theorem c9_split_pair (B : Backend) (zt : ℚ) (t : ℕ) (uc : Option ℚ)
    (c cfg_guidance : ℚ) :
    (∀ u, uc = some u → cfg_guidance ≠ 1 →
        predict_noise_split B zt t uc c cfg_guidance true
          = .ok (.inr (B.unet zt t uc, B.unet zt t (some c))))
      ∧ ((uc = none ∨ cfg_guidance = 1) →
          predict_noise_split B zt t uc c cfg_guidance true
            = .error "UnboundLocalError") := by
  constructor
  · rintro u rfl hg
    simp only [predict_noise_split, if_neg (uc_guard_false u cfg_guidance hg)]
    simp
  · intro h
    simp only [predict_noise_split, if_pos h]
    simp

/-- C9 counterexample: at the concrete input uc = 3, c = 4,
cfg_guidance = 1.0 (an input covered by the claim), the split=True call
fails with an UnboundLocalError instead of returning the unmixed pair. -/
theorem c9_counterexample :
    predict_noise_split B0 0 5 (some 3) 4 1 true = .error "UnboundLocalError" := by
  rfl

/-- C9 witness: both amended branches evaluated at concrete inputs. -/
theorem c9_witness :
    predict_noise_split B0 0 5 (some 3) 4 2 true
        = .ok (.inr (B0.unet 0 5 (some 3), B0.unet 0 5 (some 4)))
      ∧ predict_noise_split B0 0 5 none 4 2 true = .error "UnboundLocalError" :=
  ⟨(c9_split_pair B0 0 5 (some 3) 4 2).1 3 rfl (by norm_num),
   (c9_split_pair B0 0 5 none 4 2).2 (Or.inl rfl)⟩

/-- C3: in TRegSolver.sample the data-consistency branch runs exactly on the
steps with step % 3 = 0 and step < 170; on those steps the next latent is
built from the blend z0_ema = at_prev * z0y + (1 - at_prev) * z0t plus
Gaussian noise scaled by sqrt(1 - at_prev) * sqrt(at_prev); on the other
steps with the gradient correction enabled and no caller-supplied scale,
the gradient is scaled by sqrt(at_prev). -/
theorem c3_treg_cadence (B : Backend) (gradOp : (ℚ → ℚ) → ℚ → ℚ)
    (alphas : List ℚ) (finalA : ℚ) (skip : ℕ) (use_DPS use_AN : Bool)
    (cg_lamb : ℚ) (dps_lamb : Option ℚ) (measurement : ℚ) (A At : ℚ → ℚ)
    (noise : ℚ) (uc : Option ℚ) (c cfg_guidance zt : ℚ) (step t : ℕ) :
    ((treg_step B gradOp alphas finalA skip use_DPS use_AN cg_lamb dps_lamb
        measurement A At noise uc c cfg_guidance zt step t).dcRan = true
      ↔ (step % 3 = 0 ∧ step < 170))
    ∧ (step % 3 = 0 ∧ step < 170 →
        (treg_step B gradOp alphas finalA skip use_DPS use_AN cg_lamb dps_lamb
            measurement A At noise uc c cfg_guidance zt step t).ztNext
          = B.sqrt (atPrevOf alphas finalA skip t)
              * (atPrevOf alphas finalA skip t
                  * (data_consistency B
                      (treg_step B gradOp alphas finalA skip use_DPS use_AN
                        cg_lamb dps_lamb measurement A At noise uc c
                        cfg_guidance zt step t).z0t
                      measurement A At cg_lamb).1
                + (1 - atPrevOf alphas finalA skip t)
                  * (treg_step B gradOp alphas finalA skip use_DPS use_AN
                      cg_lamb dps_lamb measurement A At noise uc c
                      cfg_guidance zt step t).z0t)
            + (1 - atPrevOf alphas finalA skip t)
              * (treg_step B gradOp alphas finalA skip use_DPS use_AN cg_lamb
                  dps_lamb measurement A At noise uc c cfg_guidance zt step
                  t).noisePred
            + B.sqrt (1 - atPrevOf alphas finalA skip t)
              * B.sqrt (atPrevOf alphas finalA skip t) * noise)
    ∧ (¬(step % 3 = 0 ∧ step < 170) → use_DPS = true → dps_lamb = none →
        (treg_step B gradOp alphas finalA skip use_DPS use_AN cg_lamb dps_lamb
            measurement A At noise uc c cfg_guidance zt step t).ztNext
          = (B.sqrt (atPrevOf alphas finalA skip t)
                * (treg_step B gradOp alphas finalA skip use_DPS use_AN cg_lamb
                    dps_lamb measurement A At noise uc c cfg_guidance zt step
                    t).z0t
              + B.sqrt (1 - atPrevOf alphas finalA skip t)
                * (treg_step B gradOp alphas finalA skip use_DPS use_AN cg_lamb
                    dps_lamb measurement A At noise uc c cfg_guidance zt step
                    t).noisePred)
            - B.sqrt (atPrevOf alphas finalA skip t)
              * gradOp (measResidue B alphas uc c 0 measurement A t) zt) := by
  refine ⟨?_, ?_, ?_⟩
  · by_cases hc : step % 3 = 0 ∧ step < 170
    · simp [treg_step, hc]
    · cases use_DPS <;> simp [treg_step, hc]
  · intro hc
    simp [treg_step, hc]
  · intro hc hdps hlam
    subst hdps
    subst hlam
    simp [treg_step, hc]

/-- C3 witness: the cadence and both update formulas evaluated at concrete
inputs (the data-consistency branch at step 0, the defaulted gradient scale
at step 1). -/
theorem c3_witness :
    ((treg_step B0 gradOp0 alphas0 (1 / 2) 2 true false (1 / 100) none 1
        (fun x => x) (fun x => x) 1 (some 1) 2 3 5 0 2).dcRan = true
      ↔ (0 % 3 = 0 ∧ 0 < 170))
    ∧ (treg_step B0 gradOp0 alphas0 (1 / 2) 2 true false (1 / 100) none 1
          (fun x => x) (fun x => x) 1 (some 1) 2 3 5 0 2).ztNext
        = B0.sqrt (atPrevOf alphas0 (1 / 2) 2 2)
            * (atPrevOf alphas0 (1 / 2) 2 2
                * (data_consistency B0
                    (treg_step B0 gradOp0 alphas0 (1 / 2) 2 true false
                      (1 / 100) none 1 (fun x => x) (fun x => x) 1 (some 1) 2
                      3 5 0 2).z0t
                    1 (fun x => x) (fun x => x) (1 / 100)).1
              + (1 - atPrevOf alphas0 (1 / 2) 2 2)
                * (treg_step B0 gradOp0 alphas0 (1 / 2) 2 true false (1 / 100)
                    none 1 (fun x => x) (fun x => x) 1 (some 1) 2 3 5 0
                    2).z0t)
          + (1 - atPrevOf alphas0 (1 / 2) 2 2)
            * (treg_step B0 gradOp0 alphas0 (1 / 2) 2 true false (1 / 100)
                none 1 (fun x => x) (fun x => x) 1 (some 1) 2 3 5 0
                2).noisePred
          + B0.sqrt (1 - atPrevOf alphas0 (1 / 2) 2 2)
            * B0.sqrt (atPrevOf alphas0 (1 / 2) 2 2) * 1
    ∧ (treg_step B0 gradOp0 alphas0 (1 / 2) 2 true false (1 / 100) none 1
          (fun x => x) (fun x => x) 1 (some 1) 2 3 5 1 2).ztNext
        = (B0.sqrt (atPrevOf alphas0 (1 / 2) 2 2)
              * (treg_step B0 gradOp0 alphas0 (1 / 2) 2 true false (1 / 100)
                  none 1 (fun x => x) (fun x => x) 1 (some 1) 2 3 5 1 2).z0t
            + B0.sqrt (1 - atPrevOf alphas0 (1 / 2) 2 2)
              * (treg_step B0 gradOp0 alphas0 (1 / 2) 2 true false (1 / 100)
                  none 1 (fun x => x) (fun x => x) 1 (some 1) 2 3 5 1
                  2).noisePred)
          - B0.sqrt (atPrevOf alphas0 (1 / 2) 2 2)
            * gradOp0 (measResidue B0 alphas0 (some 1) 2 0 1 (fun x => x) 2) 5 :=
  ⟨(c3_treg_cadence B0 gradOp0 alphas0 (1 / 2) 2 true false (1 / 100) none 1
      (fun x => x) (fun x => x) 1 (some 1) 2 3 5 0 2).1,
   (c3_treg_cadence B0 gradOp0 alphas0 (1 / 2) 2 true false (1 / 100) none 1
      (fun x => x) (fun x => x) 1 (some 1) 2 3 5 0 2).2.1 (by decide),
   (c3_treg_cadence B0 gradOp0 alphas0 (1 / 2) 2 true false (1 / 100) none 1
      (fun x => x) (fun x => x) 1 (some 1) 2 3 5 1 2).2.2 (by decide) rfl rfl⟩

/-- C4: at every PSLD step the correction residual, as a function of the
latent, is exactly 1.0 * norm(y - A x0t) + 0.5 * norm(encode(At y + (x0t -
At (A x0t))) - z0t); the gradient operator is applied to that function at
zt, and the next latent is the ancestral proposal minus that raw gradient
with no additional scaling. -/
theorem c4_psld_correction (B : Backend) (gradOp : (ℚ → ℚ) → ℚ → ℚ)
    (alphas : List ℚ) (finalA : ℚ) (skip : ℕ) (uc : Option ℚ)
    (c cfg_guidance measurement : ℚ) (A At : ℚ → ℚ) (noise zt : ℚ) (t : ℕ) :
    psldResidue B alphas uc c cfg_guidance measurement A At t
        = psldResidueClaim B alphas uc c cfg_guidance measurement A At t
    ∧ (psld_step B gradOp alphas finalA skip uc c cfg_guidance measurement A
          At noise zt t).ztNext
        = (B.sqrt (atPrevOf alphas finalA skip t)
              * (psld_step B gradOp alphas finalA skip uc c cfg_guidance
                  measurement A At noise zt t).z0t
            + B.sqrt (1 - atPrevOf alphas finalA skip t)
              * (psld_step B gradOp alphas finalA skip uc c cfg_guidance
                  measurement A At noise zt t).noisePred)
          - gradOp (psldResidueClaim B alphas uc c cfg_guidance measurement A
              At t) zt := by
  refine ⟨rfl, ?_⟩
  rw [show psldResidueClaim B alphas uc c cfg_guidance measurement A At t
        = psldResidue B alphas uc c cfg_guidance measurement A At t from rfl]
  simp only [psld_step, zero_mul]
  norm_num

/-- C5: in the sampling loop of every variant the denoised estimate is
z0t = (zt - sqrt(1 - at) * noise) / sqrt(at) with the current cumulative
alpha at = alphas_cumprod[t], and the unconditional variant advances with
zt = sqrt(at_prev) * z0t + sqrt(1 - at_prev) * noise. -/
theorem c5_tweedie_all_variants (B : Backend) (gradOp : (ℚ → ℚ) → ℚ → ℚ)
    (adamUpd : ℚ → ℚ → ℚ) (gradAt : ℚ → ℚ) (alphas : List ℚ) (finalA : ℚ)
    (skip : ℕ) (use_DPS use_AN : Bool) (cg_lamb : ℚ) (dps_lamb : Option ℚ)
    (measurement : ℚ) (A At : ℚ → ℚ) (noise : ℚ) (uc : Option ℚ)
    (cP : PTensor) (c cfg_guidance zt : ℚ) (step t : ℕ) :
    (uncond_step B alphas finalA skip uc c cfg_guidance zt t).z0t
        = (zt - B.sqrt (1 - atOf alphas t)
              * (uncond_step B alphas finalA skip uc c cfg_guidance zt
                  t).noisePred) / B.sqrt (atOf alphas t)
    ∧ (uncond_step B alphas finalA skip uc c cfg_guidance zt t).ztNext
        = B.sqrt (atPrevOf alphas finalA skip t)
            * (uncond_step B alphas finalA skip uc c cfg_guidance zt t).z0t
          + B.sqrt (1 - atPrevOf alphas finalA skip t)
            * (uncond_step B alphas finalA skip uc c cfg_guidance zt
                t).noisePred
    ∧ (treg_step B gradOp alphas finalA skip use_DPS use_AN cg_lamb dps_lamb
          measurement A At noise uc c cfg_guidance zt step t).z0t
        = (zt - B.sqrt (1 - atOf alphas t)
              * (treg_step B gradOp alphas finalA skip use_DPS use_AN cg_lamb
                  dps_lamb measurement A At noise uc c cfg_guidance zt step
                  t).noisePred) / B.sqrt (atOf alphas t)
    ∧ (psld_step B gradOp alphas finalA skip uc c cfg_guidance measurement A
          At noise zt t).z0t
        = (zt - B.sqrt (1 - atOf alphas t)
              * (psld_step B gradOp alphas finalA skip uc c cfg_guidance
                  measurement A At noise zt t).noisePred)
            / B.sqrt (atOf alphas t)
    ∧ ((p2l_step B gradOp adamUpd gradAt alphas finalA skip uc cP
          cfg_guidance measurement A noise zt t).1).z0t
        = (zt - B.sqrt (1 - atOf alphas t)
              * ((p2l_step B gradOp adamUpd gradAt alphas finalA skip uc cP
                  cfg_guidance measurement A noise zt t).1).noisePred)
            / B.sqrt (atOf alphas t) := by
  refine ⟨rfl, rfl, ?_, rfl, rfl⟩
  by_cases hc : step % 3 = 0 ∧ step < 170
  · simp [treg_step, hc]
  · cases use_DPS <;> simp [treg_step, hc]

/-- CGrun is the m-fold iterate of the single conjugate-gradient step. -/
theorem CGrun_eq_iterate (A : ℚ → ℚ) (m : ℕ) :
    ∀ s, CGrun A m s = ((cgStep A)^[m] s).1 := by
  induction m with
  | zero => intro s; rfl
  | succ k ih =>
    intro s
    rw [Function.iterate_succ_apply]
    exact ih (cgStep A s)

/-- C8: data_consistency decodes z0t to x0t, builds the right-hand side
At(measurement) + cg_lamb * x0t, runs exactly five conjugate-gradient
iterations for (At . A + cg_lamb I) x = b starting from x0t, and returns
the re-encoded solution together with the pixel-space solution. -/
theorem c8_data_consistency_cg (B : Backend) (z0t measurement : ℚ)
    (A At : ℚ → ℚ) (cg_lamb : ℚ) :
    data_consistency B z0t measurement A At cg_lamb
      = (encode B (((cgStep (fun x => At (A x) + cg_lamb * x))^[5]
            (decode B z0t,
             At measurement + cg_lamb * decode B z0t
               - (At (A (decode B z0t)) + cg_lamb * decode B z0t),
             At measurement + cg_lamb * decode B z0t
               - (At (A (decode B z0t)) + cg_lamb * decode B z0t))).1),
         ((cgStep (fun x => At (A x) + cg_lamb * x))^[5]
            (decode B z0t,
             At measurement + cg_lamb * decode B z0t
               - (At (A (decode B z0t)) + cg_lamb * decode B z0t),
             At measurement + cg_lamb * decode B z0t
               - (At (A (decode B z0t)) + cg_lamb * decode B z0t))).1) := by
  simp only [data_consistency, CG, CGrun_eq_iterate]

/-- Tuning a tensor that does not require gradients leaves its value
unchanged: backward populates no gradient, so the optimizer step is a
no-op. -/
theorem p2l_tune_c_fixed (f : ℚ → ℚ → ℚ) (g : ℚ → ℚ) (x : PTensor)
    (hx : x.requiresGrad = false) : (p2l_tune_c f g x).val = x.val := by
  simp [p2l_tune_c, hx]

/-- C10: the conditional embedding is detached at the end of every tuning
update, so the embedding used by the sampler never requires gradients, its
value never changes after the first-step update, and the first-step update
itself is the Adam update of the original (tracked) embedding. -/
theorem c10_p2l_detach (adamUpd : ℕ → ℚ → ℚ → ℚ) (gradAt : ℕ → ℚ → ℚ)
    (c0 : PTensor) :
    (∀ k, (p2l_c_used adamUpd gradAt c0 k).requiresGrad = false)
    ∧ (∀ k, (p2l_c_used adamUpd gradAt c0 k).val
        = (p2l_c_used adamUpd gradAt c0 0).val)
    ∧ (c0.requiresGrad = true →
        (p2l_c_used adamUpd gradAt c0 0).val
          = adamUpd 0 c0.val (gradAt 0 c0.val)) := by
  have hrg : ∀ k, (p2l_c_used adamUpd gradAt c0 k).requiresGrad = false := by
    intro k
    cases k <;> rfl
  refine ⟨hrg, ?_, ?_⟩
  · intro k
    induction k with
    | zero => rfl
    | succ n ih =>
      have hstep : (p2l_c_used adamUpd gradAt c0 (n + 1)).val
          = (p2l_c_used adamUpd gradAt c0 n).val :=
        p2l_tune_c_fixed (adamUpd (n + 1)) (gradAt (n + 1))
          (p2l_c_used adamUpd gradAt c0 n) (hrg n)
      rw [hstep, ih]
  · intro h
    simp [p2l_c_used, p2l_tune_c, h]

/-- C10 witness: the detach behaviour evaluated on a concrete tracked
embedding of value 5, gradient equal to the value, and Adam update
v - g. -/
theorem c10_witness :
    (p2l_c_used (fun _ v g => v - g) (fun _ v => v)
        { val := 5, requiresGrad := true, grad := none } 3).requiresGrad = false
    ∧ (p2l_c_used (fun _ v g => v - g) (fun _ v => v)
          { val := 5, requiresGrad := true, grad := none } 3).val
        = (p2l_c_used (fun _ v g => v - g) (fun _ v => v)
            { val := 5, requiresGrad := true, grad := none } 0).val
    ∧ (p2l_c_used (fun _ v g => v - g) (fun _ v => v)
          { val := 5, requiresGrad := true, grad := none } 0).val
        = (fun (_ : ℕ) (v g : ℚ) => v - g) 0 5
            ((fun (_ : ℕ) (v : ℚ) => v) 0 5) :=
  ⟨(c10_p2l_detach (fun _ v g => v - g) (fun _ v => v)
      { val := 5, requiresGrad := true, grad := none }).1 3,
   (c10_p2l_detach (fun _ v g => v - g) (fun _ v => v)
      { val := 5, requiresGrad := true, grad := none }).2.1 3,
   (c10_p2l_detach (fun _ v g => v - g) (fun _ v => v)
      { val := 5, requiresGrad := true, grad := none }).2.2 rfl⟩

end LDSolver
